import Mathlib

/-!
Shallow embedding of `src/auth/rest_role_manager.cc` (Scylla REST role
manager).  The replicated roles table is modelled as an association list
from role name to row; the attributes table as an association list keyed
by (role, attribute name).  Each store operation against the roles table
additionally reports the list of database requests (`db_op`) it issues,
so that the consistency level of every read/write can be reasoned about.
-/

deriving instance DecidableEq for Except

namespace RestRoleManager

/-- Consistency levels used by the manager (`db::consistency_level`). -/
inductive consistency_level where
  | QUORUM
  | LOCAL_ONE
deriving DecidableEq, Repr

/-- Whether a database request reads or writes. -/
inductive op_kind where
  | read
  | write
deriving DecidableEq, Repr

/-- One request issued against the roles table: a point operation on the
row of a given role name (`target = some n`), or a full-table scan
(`target = none`), at a given consistency level. -/
structure db_op where
  kind : op_kind
  target : Option String
  cl : consistency_level
deriving DecidableEq, Repr

/-- A stored row of the roles table.  `none` models an absent/null
column (`role` is the key and lives outside the row). -/
structure row_t where
  is_superuser : Option Bool
  can_login : Option Bool
  member_of : Option (Finset String)
deriving DecidableEq

/-- The roles table: one row per role name (key). -/
abbrev roles_table := List (String × row_t)

/-- The role_attributes table: value keyed by (role, attribute name). -/
abbrev attrs_table := List ((String × String) × String)

/-- The whole replicated store the manager operates on. -/
structure auth_state where
  roles : roles_table
  attrs : attrs_table
deriving DecidableEq

/-- Modelled from the spec: `meta::DEFAULT_SUPERUSER_NAME`, the reserved
default superuser role name, is declared in `auth/common.hh` which is not
part of the sources; the spec calls it "a reserved constant". -/
def DEFAULT_SUPERUSER_NAME : String := "cassandra"

/-- `consistency_for_role` (line 87): QUORUM for the default superuser
name, LOCAL_ONE for every other role name. -/
def consistency_for_role (role_name : String) : consistency_level :=
  if role_name = DEFAULT_SUPERUSER_NAME then .QUORUM else .LOCAL_ONE

/-- `has_can_login` (line 95): the row has a `can_login` column and its
value is not null. -/
def has_can_login (row : row_t) : Bool :=
  row.can_login.isSome

/-- Point lookup of the row stored under a role name (the `SELECT * FROM
roles WHERE role = ?` result, first matching row). -/
def find_row : roles_table → String → Option row_t
  | [], _ => none
  | (k, r) :: rest, n => if k = n then some r else find_row rest n

/-- Effect on the roles table of `INSERT INTO roles (role, is_superuser,
can_login) VALUES (?, ?, ?)`: upsert of the named columns; an existing
row keeps its `member_of` column, a fresh row has none. -/
def roles_upsert : roles_table → String → Bool → Bool → roles_table
  | [], n, su, cl => [(n, ⟨some su, some cl, none⟩)]
  | (k, r) :: rest, n, su, cl =>
      if k = n then (k, ⟨some su, some cl, r.member_of⟩) :: rest
      else (k, r) :: roles_upsert rest n su cl

/-- The in-memory `record` struct built by `find_record` (line 80):
absent boolean columns default to `false`, an absent `member_of` column
to the empty role set. -/
structure record where
  name : String
  is_superuser : Bool
  can_login : Bool
  member_of : Finset String
deriving DecidableEq

/-- Errors surfaced by the manager: `nonexistant_role` (sic, as in the
source) and the `std::logic_error("Not Implemented")` thrown by
`drop`/`grant`/`revoke`. -/
inductive rm_error where
  | nonexistant_role (name : String)
  | not_implemented
deriving DecidableEq

/-- `recursive_role_query`: the query mode accepted (and ignored) by
`query_granted`. -/
inductive recursive_role_query where
  | yes
  | no
deriving DecidableEq

/-- `find_record` (line 167): point read of the role's row at
`consistency_for_role`; absent columns are defaulted as in the source. -/
def find_record (s : auth_state) (role_name : String) : Option record :=
  match find_row s.roles role_name with
  | none => none
  | some row =>
      some ⟨role_name, row.is_superuser.getD false, row.can_login.getD false,
            row.member_of.getD ∅⟩

/-- The database requests issued by `find_record`. -/
def find_record_ops (role_name : String) : List db_op :=
  [⟨.read, some role_name, consistency_for_role role_name⟩]

/-- `require_record` (line 195): like `find_record` but fails with
`nonexistant_role` when no row exists. -/
def require_record (s : auth_state) (role_name : String) :
    Except rm_error record :=
  match find_record s role_name with
  | none => .error (.nonexistant_role role_name)
  | some r => .ok r

/-- `collect_roles` (line 205): require the grantee's record and insert
every name of its `member_of` set into the accumulated role set. -/
def collect_roles (s : auth_state) (grantee_name : String)
    (roles : Finset String) : Except rm_error (Finset String) :=
  match require_record s grantee_name with
  | .error e => .error e
  | .ok r => .ok (roles ∪ r.member_of)

/-- `rest_role_manager::query_granted` (line 216): starts from the set
containing the grantee itself and collects its direct memberships; the
query mode is accepted but ignored (no recursive resolution). -/
def query_granted (s : auth_state) (grantee_name : String)
    (_m : recursive_role_query) : Except rm_error (Finset String) :=
  collect_roles s grantee_name {grantee_name}

/-- `rest_role_manager::exists` (line 225): unconditionally true,
without consulting the store. -/
def role_exists (_s : auth_state) (_role_name : String) : Bool :=
  true

/-- `rest_role_manager::is_superuser` (line 233): the stored flag, false
when the role has no row. -/
def is_superuser_of (s : auth_state) (role_name : String) : Bool :=
  match find_record s role_name with
  | some r => r.is_superuser
  | none => false

/-- `rest_role_manager::can_login` (line 243): the stored flag, false
when the role has no row. -/
def can_login_of (s : auth_state) (role_name : String) : Bool :=
  match find_record s role_name with
  | some r => r.can_login
  | none => false

/-- The `role_config` argument of `create`/`create_or_replace`
(declared in `auth/role_manager.hh`, outside the sources; only these two
fields are consulted here). -/
structure role_config where
  is_superuser : Bool
  can_login : Bool
deriving DecidableEq

/-- `rest_role_manager::create_or_replace` (line 254): upsert of the
`role`, `is_superuser` and `can_login` columns at `consistency_for_role`;
the attributes table is not touched. -/
def create_or_replace (s : auth_state) (role_name : String)
    (c : role_config) : auth_state × List db_op :=
  (⟨roles_upsert s.roles role_name c.is_superuser c.can_login, s.attrs⟩,
   [⟨.write, some role_name, consistency_for_role role_name⟩])

/-- `rest_role_manager::create` (line 267): delegates to
`create_or_replace`. -/
def create (s : auth_state) (role_name : String) (c : role_config) :
    auth_state × List db_op :=
  create_or_replace s role_name c

/-- The `role_config_update` argument of `alter` (optional new values;
declared in `auth/role_manager.hh`, outside the sources, and entirely
ignored by this manager). -/
structure role_config_update where
  is_superuser : Option Bool
  can_login : Option Bool
deriving DecidableEq

/-- `rest_role_manager::alter` (line 271): succeeds immediately, issuing
no request and changing nothing. -/
def alter (s : auth_state) (_role_name : String)
    (_u : role_config_update) : Except rm_error (auth_state × List db_op) :=
  .ok (s, [])

/-- `rest_role_manager::drop` (line 278): always throws
`std::logic_error("Not Implemented")`. -/
def drop (_s : auth_state) (_role_name : String) :
    Except rm_error (auth_state × List db_op) :=
  .error .not_implemented

/-- `rest_role_manager::grant` (line 282): always throws
`std::logic_error("Not Implemented")`. -/
def grant (_s : auth_state) (_grantee_name _role_name : String) :
    Except rm_error (auth_state × List db_op) :=
  .error .not_implemented

/-- `rest_role_manager::revoke` (line 286): always throws
`std::logic_error("Not Implemented")`. -/
def revoke (_s : auth_state) (_revokee_name _role_name : String) :
    Except rm_error (auth_state × List db_op) :=
  .error .not_implemented

/-- The set collected by `query_all`'s row loop (line 307): each row
contributes its role name and, when the `member_of` column is present,
every name of that set. -/
def query_all_rows (rows : roles_table) : Finset String :=
  rows.foldr
    (fun kr acc => insert kr.1 (kr.2.member_of.getD ∅ ∪ acc)) ∅

/-- `rest_role_manager::query_all` (line 290): for every row of the
roles table, the role name together with every name of the row's
`member_of` set (when that column is present). -/
def query_all (s : auth_state) : Finset String :=
  query_all_rows s.roles

/-- The database request issued by `query_all`: a full scan of the roles
table at QUORUM consistency (line 301). -/
def query_all_ops : List db_op :=
  [⟨.read, none, .QUORUM⟩]

/-- `rest_role_manager::get_attribute` (line 327): point lookup in the
role_attributes table. -/
def get_attribute (s : auth_state) (role_name attribute_name : String) :
    Option String :=
  s.attrs.foldr
    (fun kv acc =>
      if kv.1 = (role_name, attribute_name) then some kv.2 else acc)
    none

/-- `rest_role_manager::query_attribute_for_all` (line 338): over the
names produced by `query_all`, the map sending each name with a stored
value for the attribute to that value; names with no value are omitted.
The result map is modelled as its (finite) set of key/value pairs. -/
def query_attribute_for_all (s : auth_state) (attribute_name : String) :
    Finset (String × String) :=
  (query_all s).biUnion
    (fun role =>
      match get_attribute s role attribute_name with
      | some v => {(role, v)}
      | none => ∅)

/-- Modelled from the spec: `default_role_row_satisfies` (declared in
`auth/roles-metadata.hh`, outside the sources) "checks whether a record
satisfying \x7bis the default role and has can_login set\x7d already
exists", i.e. reads the default superuser's row and applies the given
predicate to it, false when the row is absent. -/
def default_role_row_satisfies (rows : roles_table)
    (p : row_t → Bool) : Bool :=
  match find_row rows DEFAULT_SUPERUSER_NAME with
  | some row => p row
  | none => false

/-- `rest_role_manager::create_default_role_if_missing` (line 122): if no
default-role record with `can_login` set exists, insert the default role
row with `is_superuser=true, can_login=true` at QUORUM; otherwise do
nothing.  The read of the default row is also at QUORUM (the default
superuser's record is only accessed at quorum). -/
def create_default_role_if_missing (s : auth_state) :
    auth_state × List db_op :=
  if default_role_row_satisfies s.roles has_can_login then
    (s, [⟨.read, some DEFAULT_SUPERUSER_NAME, .QUORUM⟩])
  else
    (⟨roles_upsert s.roles DEFAULT_SUPERUSER_NAME true true, s.attrs⟩,
     [⟨.read, some DEFAULT_SUPERUSER_NAME, .QUORUM⟩,
      ⟨.write, some DEFAULT_SUPERUSER_NAME, .QUORUM⟩])

/-- The write requests among a list of database requests. -/
def writes_of (ops : List db_op) : List db_op :=
  ops.filter (fun o => o.kind = .write)

/-!
Interleaving model of the bootstrap (`rest_role_manager::start`, line
147, running `create_default_role_if_missing` after table creation and
schema agreement).  One bootstrap process performs two atomic store
operations with a suspension point between them: first the
`default_role_row_satisfies` read, then — only when the read found no
qualifying record — the QUORUM insert.  Two independent coordinator
processes race against the same store; a schedule chooses which process
takes the next step.
-/

/-- Program counter and remembered read result of one bootstrap
process: `pc = 0` before the check, `pc = 1` after the check (with
`found` the read's result), `pc = 2` when done. -/
structure bootstrap_proc where
  pc : Nat
  found : Bool
deriving DecidableEq

/-- One atomic step of a bootstrap process against the shared roles
table. -/
def bootstrap_step (p : bootstrap_proc) (rows : roles_table) :
    bootstrap_proc × roles_table :=
  if p.pc = 0 then
    (⟨1, default_role_row_satisfies rows has_can_login⟩, rows)
  else if p.pc = 1 then
    (⟨2, p.found⟩,
     if p.found then rows
     else roles_upsert rows DEFAULT_SUPERUSER_NAME true true)
  else (p, rows)

/-- Two bootstrap coordinator processes sharing one roles table. -/
structure bootstrap_config where
  p1 : bootstrap_proc
  p2 : bootstrap_proc
  rows : roles_table
deriving DecidableEq

/-- Let the process chosen by the scheduler take one step. -/
def sched_step (c : bootstrap_config) (choice : Bool) : bootstrap_config :=
  if choice then
    let (p, rows) := bootstrap_step c.p1 c.rows
    ⟨p, c.p2, rows⟩
  else
    let (p, rows) := bootstrap_step c.p2 c.rows
    ⟨c.p1, p, rows⟩

/-- Run a whole schedule (arbitrary interleaving of the two processes). -/
def run_sched (sched : List Bool) (c : bootstrap_config) :
    bootstrap_config :=
  sched.foldl sched_step c

/-- The keys (role names) of a roles table. -/
def table_keys (rows : roles_table) : List String :=
  rows.map Prod.fst

/-- Number of rows stored under a given role name. -/
def key_count (rows : roles_table) (n : String) : Nat :=
  rows.countP (fun kr => kr.1 = n)

/-- Invariant on one bootstrap process: once its check has found a
qualifying record (or once it is done), the default-role row exists. -/
def proc_inv (p : bootstrap_proc) (rows : roles_table) : Prop :=
  (p.pc = 1 → p.found = true →
      (find_row rows DEFAULT_SUPERUSER_NAME).isSome = true) ∧
  (p.pc = 2 → (find_row rows DEFAULT_SUPERUSER_NAME).isSome = true)

/-- Invariant of the racing-bootstrap system: at most one default-role
row, any default-role row carries `is_superuser=true, can_login=true`,
and each process satisfies `proc_inv`. -/
def bootstrap_inv (c : bootstrap_config) : Prop :=
  key_count c.rows DEFAULT_SUPERUSER_NAME ≤ 1 ∧
  (∀ row, find_row c.rows DEFAULT_SUPERUSER_NAME = some row →
      row.can_login = some true ∧ row.is_superuser = some true) ∧
  proc_inv c.p1 c.rows ∧ proc_inv c.p2 c.rows

/-- The predicate the frozen consistency claim asserts of a batch of
database requests against a given roles table: every request that
touches a role's record (a point request on that name, or a scan while
the record exists) is at QUORUM for the default superuser name and at
LOCAL_ONE for every other name. -/
def per_record_consistency (ops : List db_op) (rows : roles_table) : Prop :=
  ∀ o ∈ ops, ∀ n : String,
    (o.target = some n ∨
      (o.target = none ∧ (find_row rows n).isSome = true)) →
    o.cl = (if n = DEFAULT_SUPERUSER_NAME then
              consistency_level.QUORUM
            else consistency_level.LOCAL_ONE)

/-! ### Basic lemmas about the store -/

theorem find_row_upsert_self (rows : roles_table) (n : String)
    (su cl : Bool) :
    find_row (roles_upsert rows n su cl) n =
      some ⟨some su, some cl, (find_row rows n).bind row_t.member_of⟩ := by
  induction rows with
  | nil => simp [roles_upsert, find_row]
  | cons kr rest ih =>
      obtain ⟨k, r⟩ := kr
      by_cases h : k = n
      · simp [roles_upsert, find_row, h]
      · simp [roles_upsert, find_row, h, ih]

theorem find_row_upsert_other (rows : roles_table) (n m : String)
    (su cl : Bool) (h : m ≠ n) :
    find_row (roles_upsert rows n su cl) m = find_row rows m := by
  have hnm : ¬ n = m := fun e => h e.symm
  induction rows with
  | nil => simp [roles_upsert, find_row, hnm]
  | cons kr rest ih =>
      obtain ⟨k, r⟩ := kr
      by_cases hk : k = n
      · simp [roles_upsert, find_row, hk, hnm]
      · by_cases hm : k = m
        · simp [roles_upsert, find_row, hk, hm, h]
        · simp [roles_upsert, find_row, hk, hm, ih]

theorem find_row_none_iff (rows : roles_table) (n : String) :
    find_row rows n = none ↔ key_count rows n = 0 := by
  induction rows with
  | nil => simp [find_row, key_count]
  | cons kr rest ih =>
      obtain ⟨k, r⟩ := kr
      by_cases h : k = n
      · simp [find_row, key_count, List.countP_cons, h]
      · simp [find_row, key_count, List.countP_cons, h] at ih ⊢
        exact ih

theorem key_count_upsert_self (rows : roles_table) (n : String)
    (su cl : Bool) :
    key_count (roles_upsert rows n su cl) n =
      if find_row rows n = none then key_count rows n + 1
      else key_count rows n := by
  induction rows with
  | nil => simp [roles_upsert, find_row, key_count, List.countP_cons]
  | cons kr rest ih =>
      obtain ⟨k, r⟩ := kr
      by_cases h : k = n
      · simp [roles_upsert, find_row, key_count, List.countP_cons, h]
      · simp [roles_upsert, find_row, key_count, List.countP_cons, h] at ih ⊢
        split <;> simp_all

theorem mem_query_all_rows (rows : roles_table) (x : String) :
    x ∈ query_all_rows rows ↔
      ∃ kr ∈ rows, x = kr.1 ∨ x ∈ kr.2.member_of.getD ∅ := by
  induction rows with
  | nil => simp [query_all_rows]
  | cons kr rest ih =>
      simp only [query_all_rows, List.foldr_cons, Finset.mem_insert,
        Finset.mem_union, List.mem_cons] at ih ⊢
      constructor
      · rintro (h | h | h)
        · exact ⟨kr, Or.inl rfl, Or.inl h⟩
        · exact ⟨kr, Or.inl rfl, Or.inr h⟩
        · obtain ⟨p, hp, hx⟩ := ih.mp h
          exact ⟨p, Or.inr hp, hx⟩
      · rintro ⟨p, hp | hp, hx⟩
        · subst hp
          rcases hx with h | h
          · exact Or.inl h
          · exact Or.inr (Or.inl h)
        · exact Or.inr (Or.inr (ih.mpr ⟨p, hp, hx⟩))

/-! ### Claim theorems -/

/-- C1: the bootstrap step performs no write when a default-role record
with `can_login` set already exists; otherwise it inserts the default
role row with `is_superuser=true, can_login=true` at QUORUM; and a
second bootstrap run after a successful first run performs no write. -/
theorem C1_default_role_bootstrap (s : auth_state) :
    (∀ row, find_row s.roles DEFAULT_SUPERUSER_NAME = some row →
        has_can_login row = true →
        (create_default_role_if_missing s).1 = s ∧
        writes_of (create_default_role_if_missing s).2 = []) ∧
    ((∀ row, find_row s.roles DEFAULT_SUPERUSER_NAME = some row →
        has_can_login row = false) →
        (create_default_role_if_missing s).1 =
          ⟨roles_upsert s.roles DEFAULT_SUPERUSER_NAME true true, s.attrs⟩ ∧
        writes_of (create_default_role_if_missing s).2 =
          [⟨.write, some DEFAULT_SUPERUSER_NAME, .QUORUM⟩]) ∧
    writes_of (create_default_role_if_missing
        (create_default_role_if_missing s).1).2 = [] := by
  refine ⟨?_, ?_, ?_⟩
  · intro row hrow hcl
    have hsat : default_role_row_satisfies s.roles has_can_login = true := by
      simp [default_role_row_satisfies, hrow, hcl]
    simp [create_default_role_if_missing, hsat, writes_of]
  · intro h
    have hsat : default_role_row_satisfies s.roles has_can_login = false := by
      unfold default_role_row_satisfies
      cases hf : find_row s.roles DEFAULT_SUPERUSER_NAME with
      | none => rfl
      | some row => exact h row hf
    simp [create_default_role_if_missing, hsat, writes_of]
  · by_cases hsat : default_role_row_satisfies s.roles has_can_login = true
    · simp [create_default_role_if_missing, hsat, writes_of]
    · have hsat' : default_role_row_satisfies s.roles has_can_login = false :=
        Bool.eq_false_iff.mpr hsat
      have h2 : default_role_row_satisfies
          (roles_upsert s.roles DEFAULT_SUPERUSER_NAME true true)
          has_can_login = true := by
        simp [default_role_row_satisfies, find_row_upsert_self, has_can_login]
      simp [create_default_role_if_missing, hsat', h2, writes_of]

/-- C1 witness: with an already-qualifying default row the step changes
nothing; on an empty store it performs the quorum insert. -/
theorem C1_default_role_bootstrap_witness :
    ((create_default_role_if_missing
        ⟨[(DEFAULT_SUPERUSER_NAME, ⟨some true, some true, none⟩)], []⟩).1 =
      ⟨[(DEFAULT_SUPERUSER_NAME, ⟨some true, some true, none⟩)], []⟩) ∧
    writes_of (create_default_role_if_missing ⟨[], []⟩).2 =
      [⟨.write, some DEFAULT_SUPERUSER_NAME, .QUORUM⟩] := by
  constructor
  · exact ((C1_default_role_bootstrap
        ⟨[(DEFAULT_SUPERUSER_NAME, ⟨some true, some true, none⟩)], []⟩).1
      ⟨some true, some true, none⟩ (by simp [find_row]) rfl).1
  · exact ((C1_default_role_bootstrap ⟨[], []⟩).2.1
      (by intro row h; simp [find_row] at h)).2

/-- C2 counterexample: on a store holding a record for role "alice",
`query_all`'s scan reads that (non-default) record at QUORUM, so it is
false that every read of a non-default role record is issued at
LOCAL_ONE. -/
theorem C2_consistency_counterexample :
    ¬ per_record_consistency query_all_ops
        [("alice", ⟨some true, some true, none⟩)] := by
  intro h
  have h1 := h ⟨.read, none, .QUORUM⟩ (by simp [query_all_ops]) "alice"
      (Or.inr ⟨rfl, by simp [find_row]⟩)
  rw [if_neg (by decide : ¬ ("alice" = DEFAULT_SUPERUSER_NAME))] at h1
  exact absurd h1 (by decide)

/-- C2 (amended): every point read or write keyed by a role name
(`find_record`, `create_or_replace`, `create`, and the bootstrap's check
and insert of the default role) is issued at QUORUM for the default
superuser's record and at LOCAL_ONE for every other record, while
`query_all` reads the whole roles table — every record — at QUORUM. -/
theorem C2_point_access_consistency (s : auth_state) (n : String)
    (c : role_config) :
    per_record_consistency (find_record_ops n) s.roles ∧
    per_record_consistency (create_or_replace s n c).2 s.roles ∧
    per_record_consistency (create s n c).2 s.roles ∧
    per_record_consistency (create_default_role_if_missing s).2 s.roles ∧
    (∀ o ∈ query_all_ops, o.cl = .QUORUM) := by
  have point : ∀ (k : op_kind) (n' : String) (rows : roles_table),
      per_record_consistency [⟨k, some n', consistency_for_role n'⟩] rows := by
    intro k n' rows o ho m hm
    simp only [List.mem_singleton] at ho
    subst ho
    rcases hm with h | ⟨h, _⟩
    · simp only [Option.some.injEq] at h
      subst h
      rfl
    · simp at h
  refine ⟨point .read n s.roles, point .write n s.roles,
    point .write n s.roles, ?_, ?_⟩
  · intro o ho m hm
    have hts : o.target = some DEFAULT_SUPERUSER_NAME ∧ o.cl = .QUORUM := by
      by_cases hsat : default_role_row_satisfies s.roles has_can_login
      · simp only [create_default_role_if_missing, if_pos hsat,
          List.mem_singleton] at ho
        subst ho
        exact ⟨rfl, rfl⟩
      · simp only [create_default_role_if_missing, if_neg hsat,
          List.mem_cons, List.mem_singleton, List.not_mem_nil,
          or_false] at ho
        rcases ho with ho | ho <;> subst ho <;> exact ⟨rfl, rfl⟩
    rcases hm with h | ⟨h, _⟩
    · rw [hts.1] at h
      simp only [Option.some.injEq] at h
      rw [hts.2, ← h]
      simp
    · rw [hts.1] at h
      cases h
  · intro o ho
    simp only [query_all_ops, List.mem_singleton] at ho
    subst ho
    rfl

/-- C2 witness: the point read of role "alice" issued by `find_record`
is at the non-default branch of the consistency rule (LOCAL_ONE). -/
theorem C2_point_access_consistency_witness :
    (⟨.read, some "alice", .LOCAL_ONE⟩ : db_op).cl =
      (if "alice" = DEFAULT_SUPERUSER_NAME then
        consistency_level.QUORUM else consistency_level.LOCAL_ONE) :=
  (C2_point_access_consistency ⟨[], []⟩ "alice" ⟨true, true⟩).1
    ⟨.read, some "alice", .LOCAL_ONE⟩ (by decide) "alice" (Or.inl rfl)

/-- C3: for a grantee with a record, `query_granted` returns exactly the
grantee plus its direct `member_of` names under every query mode, never
a depth-2 membership; for a grantee with no record it fails with
`nonexistant_role`. -/
theorem C3_query_granted_nonrecursive (s : auth_state) (g : String)
    (m : recursive_role_query) :
    (∀ row, find_row s.roles g = some row →
        query_granted s g m = .ok (insert g (row.member_of.getD ∅))) ∧
    (find_row s.roles g = none →
        query_granted s g m = .error (.nonexistant_role g)) ∧
    (∀ row rowb b c res,
        find_row s.roles g = some row →
        b ∈ row.member_of.getD ∅ →
        find_row s.roles b = some rowb →
        c ∈ rowb.member_of.getD ∅ →
        c ∉ row.member_of.getD ∅ → c ≠ g →
        query_granted s g m = .ok res → c ∉ res) := by
  refine ⟨?_, ?_, ?_⟩
  · intro row hrow
    simp [query_granted, collect_roles, require_record, find_record, hrow,
      ← Finset.insert_eq]
  · intro hnone
    simp [query_granted, collect_roles, require_record, find_record, hnone]
  · intro row rowb b c res hrow hb hrowb hc hcnot hcg hres hmem
    have heq : query_granted s g m =
        .ok (insert g (row.member_of.getD ∅)) := by
      simp [query_granted, collect_roles, require_record, find_record, hrow,
        ← Finset.insert_eq]
    have hres' : insert g (row.member_of.getD ∅) = res := by
      have := heq.symm.trans hres
      exact Except.ok.inj this
    rw [← hres'] at hmem
    rcases Finset.mem_insert.mp hmem with h | h
    · exact hcg h
    · exact hcnot h

/-- C3 witness: with A a member of B and B a member of C, querying A
yields exactly \x7bA, B\x7d, C is not included, and a name with no
record fails. -/
theorem C3_query_granted_nonrecursive_witness :
    (query_granted ⟨[("A", ⟨some true, some true, some {"B"}⟩),
        ("B", ⟨none, none, some {"C"}⟩)], []⟩ "A" .yes =
      .ok (insert "A" (({"B"} : Finset String)))) ∧
    (query_granted ⟨[("A", ⟨some true, some true, some {"B"}⟩),
        ("B", ⟨none, none, some {"C"}⟩)], []⟩ "Z" .no =
      .error (.nonexistant_role "Z")) ∧
    "C" ∉ (insert "A" (({"B"} : Finset String))) := by
  refine ⟨?_, ?_, ?_⟩
  · exact (C3_query_granted_nonrecursive
        ⟨[("A", ⟨some true, some true, some {"B"}⟩),
          ("B", ⟨none, none, some {"C"}⟩)], []⟩ "A" .yes).1
      ⟨some true, some true, some {"B"}⟩ (by decide)
  · exact (C3_query_granted_nonrecursive
        ⟨[("A", ⟨some true, some true, some {"B"}⟩),
          ("B", ⟨none, none, some {"C"}⟩)], []⟩ "Z" .no).2.1 (by decide)
  · exact (C3_query_granted_nonrecursive
        ⟨[("A", ⟨some true, some true, some {"B"}⟩),
          ("B", ⟨none, none, some {"C"}⟩)], []⟩ "A" .yes).2.2
      ⟨some true, some true, some {"B"}⟩ ⟨none, none, some {"C"}⟩
      "B" "C" (insert "A" (({"B"} : Finset String)))
      (by decide) (by decide) (by decide) (by decide) (by decide)
      (by decide) (by decide)

/-- C5: for every input role name, including names that were never
written to the store, `exists` returns true. -/
theorem C5_exists_always_true (s : auth_state) (role_name : String) :
    role_exists s role_name = true :=
  rfl

/-- C8: for every input, `drop`, `grant` and `revoke` fail
unconditionally with the unimplemented-operation error; no successor
state is ever produced, so the store is never mutated. -/
theorem C8_lifecycle_ops_unimplemented (s : auth_state)
    (a b : String) :
    drop s a = .error .not_implemented ∧
    grant s a b = .error .not_implemented ∧
    revoke s a b = .error .not_implemented :=
  ⟨rfl, rfl, rfl⟩

/-- C9: for every role name and every update, `alter` succeeds, issues
no database request, and every stored record (its `is_superuser`,
`can_login` and `member_of`) is identical before and after the call. -/
theorem C9_alter_is_noop (s : auth_state) (role_name : String)
    (u : role_config_update) :
    ∃ s' : auth_state,
      alter s role_name u = .ok (s', []) ∧
      (∀ g, find_record s' g = find_record s g) ∧
      s'.attrs = s.attrs :=
  ⟨s, rfl, fun _ => rfl, rfl⟩

/-- C10: `create` is behaviorally identical to `create_or_replace`; the
upsert touches only this role's row of the roles table, writes only the
`is_superuser` and `can_login` columns (the existing row's `member_of`
and the attributes table are untouched), and silently replaces an
existing record instead of failing. -/
theorem C10_create_refines_create_or_replace (s : auth_state)
    (role_name : String) (c : role_config) :
    create s role_name c = create_or_replace s role_name c ∧
    (create s role_name c).1.attrs = s.attrs ∧
    (∀ m, find_row (create s role_name c).1.roles m =
      if m = role_name then
        some ⟨some c.is_superuser, some c.can_login,
              (find_row s.roles role_name).bind row_t.member_of⟩
      else find_row s.roles m) := by
  refine ⟨rfl, rfl, fun m => ?_⟩
  by_cases h : m = role_name
  · subst h
    simpa [create, create_or_replace] using
      find_row_upsert_self s.roles m c.is_superuser c.can_login
  · simpa [create, create_or_replace, h] using
      find_row_upsert_other s.roles role_name m c.is_superuser c.can_login h

/-- C6: `query_all` scans the roles table at QUORUM and returns, for
every row, the role name together with every name present in that row's
`member_of` set — including names that have no row of their own. -/
theorem C6_query_all_includes_members (s : auth_state) :
    (∀ x : String, x ∈ query_all s ↔
        ∃ kr ∈ s.roles, x = kr.1 ∨ x ∈ kr.2.member_of.getD ∅) ∧
    query_all_ops = [⟨.read, none, .QUORUM⟩] :=
  ⟨fun x => mem_query_all_rows s.roles x, rfl⟩

/-- C6 witness: a name appearing only inside another role's `member_of`
set (a virtual role name, with no row of its own) is returned. -/
theorem C6_query_all_includes_members_witness :
    ("ghost" : String) ∈
      query_all ⟨[("A", ⟨none, none, some {"ghost"}⟩)], []⟩ :=
  ((C6_query_all_includes_members
      ⟨[("A", ⟨none, none, some {"ghost"}⟩)], []⟩).1 "ghost").mpr
    ⟨("A", ⟨none, none, some {"ghost"}⟩), by simp, Or.inr (by decide)⟩

/-- C7: `query_attribute_for_all` returns exactly the map that, over the
names produced by `query_all`, sends each name with a stored value for
the attribute to that value, omitting every name with no value. -/
theorem C7_query_attribute_for_all_exact (s : auth_state)
    (attribute_name : String) :
    ∀ n v, (n, v) ∈ query_attribute_for_all s attribute_name ↔
      n ∈ query_all s ∧ get_attribute s n attribute_name = some v := by
  intro n v
  simp only [query_attribute_for_all, Finset.mem_biUnion]
  constructor
  · rintro ⟨r, hr, hmem⟩
    cases hg : get_attribute s r attribute_name with
    | none => simp [hg] at hmem
    | some w =>
        simp only [hg, Finset.mem_singleton, Prod.mk.injEq] at hmem
        obtain ⟨h1, h2⟩ := hmem
        subst h1
        subst h2
        exact ⟨hr, hg⟩
  · rintro ⟨hn, hg⟩
    exact ⟨n, hn, by simp [hg]⟩

/-- C7 witness: on roles \x7bA: X="1", B: no X, C: X="3"\x7d the result
contains (A, "1") and holds nothing for B. -/
theorem C7_query_attribute_for_all_exact_witness :
    (("A", "1") ∈ query_attribute_for_all
      ⟨[("A", ⟨none, none, none⟩), ("B", ⟨none, none, none⟩),
        ("C", ⟨none, none, none⟩)],
       [(("A", "X"), "1"), (("C", "X"), "3")]⟩ "X") ∧
    (("B", "2") ∉ query_attribute_for_all
      ⟨[("A", ⟨none, none, none⟩), ("B", ⟨none, none, none⟩),
        ("C", ⟨none, none, none⟩)],
       [(("A", "X"), "1"), (("C", "X"), "3")]⟩ "X") := by
  constructor
  · exact (C7_query_attribute_for_all_exact
        ⟨[("A", ⟨none, none, none⟩), ("B", ⟨none, none, none⟩),
          ("C", ⟨none, none, none⟩)],
         [(("A", "X"), "1"), (("C", "X"), "3")]⟩ "X" "A" "1").mpr
      ⟨by decide, by decide⟩
  · intro h
    have hc := ((C7_query_attribute_for_all_exact
        ⟨[("A", ⟨none, none, none⟩), ("B", ⟨none, none, none⟩),
          ("C", ⟨none, none, none⟩)],
         [(("A", "X"), "1"), (("C", "X"), "3")]⟩ "X" "B" "2").mp h).2
    exact absurd hc (by decide)

/-! ### The racing-bootstrap invariant -/

theorem default_role_row_satisfies_isSome (rows : roles_table)
    (p : row_t → Bool) (h : default_role_row_satisfies rows p = true) :
    (find_row rows DEFAULT_SUPERUSER_NAME).isSome = true := by
  cases hf : find_row rows DEFAULT_SUPERUSER_NAME with
  | none => simp [default_role_row_satisfies, hf] at h
  | some row => rfl

theorem find_row_upsert_isSome (rows : roles_table) (n : String)
    (su cl : Bool) :
    (find_row (roles_upsert rows n su cl) n).isSome = true := by
  rw [find_row_upsert_self]
  rfl

theorem bootstrap_step_preserves (p q : bootstrap_proc) (rows : roles_table)
    (hcount : key_count rows DEFAULT_SUPERUSER_NAME ≤ 1)
    (hrows : ∀ row, find_row rows DEFAULT_SUPERUSER_NAME = some row →
        row.can_login = some true ∧ row.is_superuser = some true)
    (hp : proc_inv p rows) (hq : proc_inv q rows) :
    key_count (bootstrap_step p rows).2 DEFAULT_SUPERUSER_NAME ≤ 1 ∧
    (∀ row,
        find_row (bootstrap_step p rows).2 DEFAULT_SUPERUSER_NAME = some row →
        row.can_login = some true ∧ row.is_superuser = some true) ∧
    proc_inv (bootstrap_step p rows).1 (bootstrap_step p rows).2 ∧
    proc_inv q (bootstrap_step p rows).2 := by
  by_cases h0 : p.pc = 0
  · simp only [bootstrap_step, if_pos h0]
    refine ⟨hcount, hrows, ⟨?_, ?_⟩, hq⟩
    · intro _ hfound
      exact default_role_row_satisfies_isSome rows has_can_login hfound
    · intro h
      simp at h
  · by_cases h1 : p.pc = 1
    · by_cases hf : p.found = true
      · simp only [bootstrap_step, if_neg h0, if_pos h1, if_pos hf]
        exact ⟨hcount, hrows, ⟨fun h => absurd h (by simp), fun _ =>
          hp.1 h1 hf⟩, hq⟩
      · have hf' : p.found = false := Bool.eq_false_iff.mpr hf
        simp only [bootstrap_step, if_neg h0, if_pos h1, hf',
          Bool.false_eq_true, if_neg (by simp : ¬ False)]
        refine ⟨?_, ?_, ⟨fun h => absurd h (by simp), fun _ =>
          find_row_upsert_isSome _ _ _ _⟩,
          ⟨fun _ _ => find_row_upsert_isSome _ _ _ _, fun _ =>
            find_row_upsert_isSome _ _ _ _⟩⟩
        · rw [key_count_upsert_self]
          by_cases hn : find_row rows DEFAULT_SUPERUSER_NAME = none
          · rw [if_pos hn]
            have := (find_row_none_iff rows DEFAULT_SUPERUSER_NAME).mp hn
            omega
          · rw [if_neg hn]
            exact hcount
        · intro row hrow
          rw [find_row_upsert_self] at hrow
          obtain rfl := Option.some.inj hrow
          exact ⟨rfl, rfl⟩
    · simp only [bootstrap_step, if_neg h0, if_neg h1]
      exact ⟨hcount, hrows, hp, hq⟩

theorem sched_step_preserves (c : bootstrap_config) (choice : Bool)
    (h : bootstrap_inv c) : bootstrap_inv (sched_step c choice) := by
  obtain ⟨hc, hr, hp1, hp2⟩ := h
  cases choice
  · have h' := bootstrap_step_preserves c.p2 c.p1 c.rows hc hr hp2 hp1
    exact ⟨h'.1, h'.2.1, h'.2.2.2, h'.2.2.1⟩
  · have h' := bootstrap_step_preserves c.p1 c.p2 c.rows hc hr hp1 hp2
    exact ⟨h'.1, h'.2.1, h'.2.2.1, h'.2.2.2⟩

theorem run_sched_preserves (sched : List Bool) (c : bootstrap_config)
    (h : bootstrap_inv c) : bootstrap_inv (run_sched sched c) := by
  induction sched generalizing c with
  | nil => exact h
  | cons a t ih => exact ih (sched_step c a) (sched_step_preserves c a h)

/-- C4: when two independent bootstrap processes race against the same
store, under every interleaving in which both complete, a store that
held no default-role record ends with exactly one default-role record,
and that record has `can_login = true`. -/
theorem C4_racing_bootstrap_exactly_once (s : roles_table)
    (sched : List Bool)
    (hfresh : find_row s DEFAULT_SUPERUSER_NAME = none)
    (h1 : (run_sched sched ⟨⟨0, false⟩, ⟨0, false⟩, s⟩).p1.pc = 2)
    (h2 : (run_sched sched ⟨⟨0, false⟩, ⟨0, false⟩, s⟩).p2.pc = 2) :
    key_count (run_sched sched ⟨⟨0, false⟩, ⟨0, false⟩, s⟩).rows
      DEFAULT_SUPERUSER_NAME = 1 ∧
    ∃ row,
      find_row (run_sched sched ⟨⟨0, false⟩, ⟨0, false⟩, s⟩).rows
          DEFAULT_SUPERUSER_NAME = some row ∧
      row.can_login = some true := by
  have hinv0 : bootstrap_inv ⟨⟨0, false⟩, ⟨0, false⟩, s⟩ := by
    refine ⟨?_, ?_, ⟨?_, ?_⟩, ⟨?_, ?_⟩⟩
    · show key_count s DEFAULT_SUPERUSER_NAME ≤ 1
      have := (find_row_none_iff s DEFAULT_SUPERUSER_NAME).mp hfresh
      omega
    · intro row hrow
      rw [hfresh] at hrow
      cases hrow
    all_goals intro h
    all_goals simp at h
  obtain ⟨hc, hr, hp1, hp2⟩ :=
    run_sched_preserves sched ⟨⟨0, false⟩, ⟨0, false⟩, s⟩ hinv0
  have hsome := hp1.2 h1
  have hsome2 := hp2.2 h2
  cases hfr : find_row (run_sched sched ⟨⟨0, false⟩, ⟨0, false⟩, s⟩).rows
      DEFAULT_SUPERUSER_NAME with
  | none =>
      rw [hfr] at hsome
      cases hsome
  | some row =>
      have hcl := (hr row hfr).1
      have hpos : key_count
          (run_sched sched ⟨⟨0, false⟩, ⟨0, false⟩, s⟩).rows
          DEFAULT_SUPERUSER_NAME ≠ 0 := by
        intro h0
        have := (find_row_none_iff _ DEFAULT_SUPERUSER_NAME).mpr h0
        rw [this] at hfr
        cases hfr
      exact ⟨by omega, row, rfl, hcl⟩

/-- C4 witness: an interleaved schedule of the two processes on the
empty store leaves exactly one default-role record. -/
theorem C4_racing_bootstrap_exactly_once_witness :
    key_count (run_sched [true, false, true, false]
      ⟨⟨0, false⟩, ⟨0, false⟩, []⟩).rows DEFAULT_SUPERUSER_NAME = 1 :=
  (C4_racing_bootstrap_exactly_once [] [true, false, true, false]
    rfl (by decide) (by decide)).1

end RestRoleManager
